import Mathlib

/-!
Verification of `frescobaldi_app/vcs/gitjob.py`: a shallow embedding of the
`Git` process-job wrapper and the `GitJobQueue` FIFO queue, with theorems
checking the specification's claims against this embedding.

Modelling conventions:
* A Python attribute that may hold `None` becomes an `Option`; a Python
  statement that raises becomes an error result (`Except` for job methods,
  an `Option PyError` component for queue operations), and the state that a
  raising operation returns is the state at the moment of the raise, so
  mutations performed before the raise are kept, as in Python.
* The external process is not run; its behaviour is supplied by the
  environment as parameters (`raw_out`, `raw_err`, `exitcode`).  A text
  channel is modelled after UTF-8 decoding as a Lean `String`; a binary
  channel (`QByteArray` in the source) is modelled as the undecoded raw
  string, tagged `Payload.binary`.
* Qt signal emission and delivery are explicit: completing a process yields
  the list of signals `Git._finished` emits, and the queue reacts only
  through the connection it actually makes in `enqueue`, namely
  `executed → _auto_run_next` (gitjob.py line 242).  `Git._finished`
  (lines 163-174) emits only `finished`; no line of gitjob.py ever emits
  `executed`.
* PyQt's `signal.disconnect()` with no argument raises `TypeError` when the
  signal has no connected receiver; `GitJobQueue._remove_current` (line 276)
  calls it on the head job's `errorOccurred`.  The number of receivers that
  outside code has connected to a job's `errorOccurred` signal is tracked in
  the field `errReceivers` and chosen by the environment at `enqueue` time.
-/

/-- A captured output channel of the process: `Git._handle_results` stores a
`QByteArray` in binary mode and a list of decoded lines in text mode. -/
inductive Payload where
  | binary (raw : String)
  | text (lines : List String)
  deriving DecidableEq, Repr

/-- The Python exceptions the embedded code can raise:
`Exception("Command 'args' is not specified")` from `Git._start_process`
(line 79), `NameError` from the unbound identifier `none` in `Git.stderr`
(line 195), and `TypeError` from CPython/PyQt (re.match on a non-string,
disconnect() with no receivers). -/
inductive PyError where
  | exceptionArgsNotSpecified
  | nameError
  | typeError
  deriving DecidableEq, Repr

/-- The signals a `Git` job can emit, as declared at gitjob.py lines 36-44.
Only the ones relevant to the claims carry their payloads. -/
inductive Sig where
  | startedSig
  | finishedSig (exitcode : Int)
  | executedSig (status : Int)
  | errorOccurredSig
  deriving DecidableEq, Repr

/-- Python `str.split('\n')`: splits on every newline and keeps empty pieces,
so the result is never the empty list (splitting `""` gives `[""]`). -/
def splitOnNewline : List Char → List (List Char)
  | [] => [[]]
  | c :: rest =>
    if c = '\n' then [] :: splitOnNewline rest
    else
      match splitOnNewline rest with
      | [] => [[c]]
      | l :: ls => (c :: l) :: ls

/-- `str(bytes, 'utf-8').split('\n')` with the decoded text given as a Lean
string. -/
def pySplitLines (s : String) : List String :=
  (splitOnNewline s.data).map (fun cs => String.mk cs)

/-- Lines 157-158 and 160-161 of `Git._handle_results`:
`if not lst[-1]: lst.pop()` — drop the final element when it is the empty
string.  The `[-1]` index cannot fail there because `split` never returns an
empty list; the `none` branch below is unreachable on such inputs. -/
def dropTrailingEmpty (parts : List String) : List String :=
  match parts.getLast? with
  | some last => if last = "" then parts.dropLast else parts
  | none => parts

/-- The mutable state of one `Git` object (gitjob.py lines 46-72).  The
working directory and the executable name play no part in any claim and are
not tracked.  `procArgs` is the argument list last passed to
`QProcess.setArguments`; `running` abstracts `QProcess.state() != NotRunning`;
`errReceivers` counts the receivers outside code has connected to this job's
`errorOccurred` signal; `deleted` records that `deleteLater()` was called. -/
structure GitState where
  preset_args : Option (List String) := none
  _version : Option (Nat × Nat × Nat) := none
  _isbinary : Bool := false
  _stderr : Option Payload := none
  _stdout : Option Payload := none
  procArgs : List String := []
  running : Bool := false
  errReceivers : Nat := 0
  deleted : Bool := false
  deriving DecidableEq, Repr

namespace Git

/-- The state `Git.__init__` leaves behind: no preset args, no cached
version, text mode, both captured channels unset, process not running. -/
def initState : GitState := {}

/-- `Git._start_process` (lines 74-84): raises when `args` is `None`, and
only otherwise resets the captured channels, stores the mode flag, sets the
process arguments and starts the process. -/
def _start_process (g : GitState) (args : Option (List String)) (isbinary : Bool) :
    Except PyError GitState :=
  match args with
  | none => .error .exceptionArgsNotSpecified
  | some a =>
    .ok { g with _stderr := none, _stdout := none, _isbinary := isbinary,
                 procArgs := a, running := true }

/-- `Git._handle_results` (lines 147-161): binary mode stores the raw
channels unmodified; text mode decodes as UTF-8, splits on newlines and drops
a trailing empty artifact line. -/
def _handle_results (g : GitState) (raw_out raw_err : String) : GitState :=
  if g._isbinary then
    { g with _stderr := some (.binary raw_err), _stdout := some (.binary raw_out) }
  else
    { g with
        _stdout := some (.text (dropTrailingEmpty (pySplitLines raw_out))),
        _stderr := some (.text (dropTrailingEmpty (pySplitLines raw_err))) }

/-- The process of a job exits: `QProcess` leaves the `Running` state, then
the connected slot `Git._finished` (lines 163-174) runs `_handle_results`
and emits the job's `finished` signal with the exit code.  (The signal is
declared `pyqtSignal(QObject)` at line 36 but emitted with an `int`; no claim
depends on what its external receivers observe.)  `executed` is NOT among
the emitted signals: no statement of gitjob.py emits it. -/
def processExitJob (g : GitState) (raw_out raw_err : String) (exitcode : Int) :
    GitState × List Sig :=
  let g1 := { g with running := false }
  let g2 := _handle_results g1 raw_out raw_err
  (g2, [Sig.finishedSig exitcode])

/-- `Git.run` (lines 86-99): resolve `args` against `preset_args`
(`args = self.preset_args if args == None else args`) and start the
process. -/
def run (g : GitState) (args : Option (List String)) (isbinary : Bool) :
    Except PyError GitState :=
  let args1 := match args with
    | none => g.preset_args
    | some a => some a
  _start_process g args1 isbinary

/-- `Git.run_blocking` (lines 101-116): the same resolution and start lines
as `run`, then `waitForFinished()` — during which the process runs to
completion and the `_finished` slot executes — and finally the pair
`(self._stdout, self._stderr)` is returned. -/
def run_blocking (g : GitState) (args : Option (List String)) (isbinary : Bool)
    (raw_out raw_err : String) (exitcode : Int) :
    Except PyError (GitState × (Option Payload × Option Payload)) :=
  let args1 := match args with
    | none => g.preset_args
    | some a => some a
  match _start_process g args1 isbinary with
  | .error e => .error e
  | .ok g1 =>
    let g2 := (processExitJob g1 raw_out raw_err exitcode).1
    .ok (g2, (g2._stdout, g2._stderr))

/-- `Git.isRunning` (lines 118-122). -/
def isRunning (g : GitState) : Bool := g.running

/-- `Git.kill` (lines 124-130): terminate the process if it is running. -/
def kill (g : GitState) : GitState :=
  if isRunning g then { g with running := false } else g

/-- `Git.stdout` (lines 176-188): returns `self._stdout` when it is set and
`None` otherwise. -/
def stdout (g : GitState) : Option Payload :=
  match g._stdout with
  | some v => some v
  | none => none

/-- Python name resolution for the constant the `stderr` body compares
against: the builtin is spelled `None`; the lowercase `none` written at
line 195 resolves to nothing. -/
def pyResolvesName (s : String) : Bool := s == "None"

/-- `Git.stderr` (lines 190-199): the guard `if self._stderr is not none:`
evaluates the identifier `none`, which is unbound, so every call raises
`NameError` before the comparison can happen.  Were the name resolvable the
body would return `self._stderr` when set and `None` otherwise. -/
def stderr (g : GitState) : Except PyError (Option Payload) :=
  if pyResolvesName "none" then
    .ok (match g._stderr with
         | some v => some v
         | none => none)
  else
    .error .nameError

/-- Decimal value of a digit group, as `int()` computes it for a regex
group. -/
def digitsVal (ds : List Char) : Nat :=
  ds.foldl (fun acc c => 10 * acc + (c.toNat - '0'.toNat)) 0

/-- The regex of `Git.version` (line 221),
`re.match(r'git version (\d+)\.(\d+)\.(\d+)', s)`, as it acts on an actual
`str` argument: an anchored prefix match of the literal `git version `
followed by three dot-separated digit groups. -/
def reMatchVersionStr (s : String) : Option (Nat × Nat × Nat) :=
  let cs := s.data
  if cs.take 12 = "git version ".data then
    let r0 := cs.drop 12
    let d1 := r0.takeWhile (·.isDigit)
    let r1 := r0.dropWhile (·.isDigit)
    match r1 with
    | '.' :: r2 =>
      let d2 := r2.takeWhile (·.isDigit)
      let r3 := r2.dropWhile (·.isDigit)
      match r3 with
      | '.' :: r4 =>
        let d3 := r4.takeWhile (·.isDigit)
        if d1 = [] ∨ d2 = [] ∨ d3 = [] then none
        else some (digitsVal d1, digitsVal d2, digitsVal d3)
      | _ => none
    | _ => none
  else none

/-- What `re.match(r'git version ...', output[0])` at line 221 does to the
value the code actually passes.  `output` is the pair `run_blocking` returns
(a two-element tuple, always truthy, so the `or ''` at line 219 never
substitutes), hence `output[0]` is `self._stdout`: `None` before results, a
`list` of `str` in text mode, a `QByteArray` in binary mode.  CPython's
`re.match` with a `str` pattern raises `TypeError` on every one of these
("expected string or bytes-like object" for `None` and `list`, "cannot use a
string pattern on a bytes-like object" for the byte array).  No `str` case
exists because `_stdout` never holds a `str`. -/
def reMatchOnStdoutValue : Option Payload → Except PyError (Option (Nat × Nat × Nat))
  | none => .error .typeError
  | some (.text _) => .error .typeError
  | some (.binary _) => .error .typeError

/-- `Git.version` (lines 204-228): return the cached tuple when set (a
non-empty Python tuple is truthy); otherwise run `run_blocking(['--version'])`
and apply the regex to `output[0]`.  The two `.ok` result branches transcribe
lines 222-228 (`if match: ... else: pass`, the `else` returning `None`); they
are unreachable because `reMatchOnStdoutValue` always raises. -/
def version (g : GitState) (raw_out raw_err : String) (exitcode : Int) :
    Except PyError (GitState × Option (Nat × Nat × Nat)) :=
  match g._version with
  | some v => .ok (g, some v)
  | none =>
    match run_blocking g (some ["--version"]) false raw_out raw_err exitcode with
    | .error e => .error e
    | .ok (g1, output) =>
      match reMatchOnStdoutValue output.1 with
      | .error e => .error e
      | .ok (some v) => .ok ({ g1 with _version := some v }, some v)
      | .ok none => .ok (g1, none)

end Git

/-- The whole system: every `Git` object ever created (indexed by position;
a queue entry is such an index), the queue's `_queue` list, the set of jobs
whose `executed` signal `enqueue` connected to `_auto_run_next`, and two
observation logs — which jobs were launched (`run()` reached
`process.start()`) and how many times the advance handler `_auto_run_next`
ran. -/
structure QSys where
  jobs : List GitState := []
  queue : List Nat := []
  execConns : List Nat := []
  launches : List Nat := []
  advances : Nat := 0
  deriving DecidableEq, Repr

/-- The state after `GitJobQueue.__init__`: no jobs, empty queue. -/
def QSys.initState : QSys := {}

/-- Dereference a job index. -/
def QSys.getJob (s : QSys) (j : Nat) : Option GitState := s.jobs[j]?

/-- Replace the job object at index `j`. -/
def QSys.setJob (s : QSys) (j : Nat) (g : GitState) : QSys :=
  { s with jobs := s.jobs.set j g }

/-- Whether the job at index `j` is currently running (false for an index
that names no job). -/
def jobRunning (s : QSys) (j : Nat) : Bool :=
  match s.getJob j with
  | some g => g.running
  | none => false

/-- The queue calling `job.run()` with no arguments (lines 246 and 266), so
the job's `preset_args` are used.  On success the launch is logged; on the
`Exception` from `_start_process` the job state is unchanged (the raise
happens before any mutation).  The `none` branch is unreachable: queue
entries always index into `jobs`. -/
def runJob (s : QSys) (j : Nat) : QSys × Option PyError :=
  match s.getJob j with
  | none => (s, none)
  | some g =>
    match Git.run g none false with
    | .error e => (s, some e)
    | .ok g1 => ({ s.setJob j g1 with launches := s.launches ++ [j] }, none)

namespace GitJobQueue

/-- `GitJobQueue.enqueue` (lines 237-246): connect the job's `executed`
signal to `_auto_run_next`, append the job, and if the queue now has length
one run `self._queue[0]`.  The job object itself is created by the caller;
its preset arguments and the number of external `errorOccurred` receivers
are environment choices. -/
def enqueue (s : QSys) (preset : Option (List String)) (errRecv : Nat) :
    QSys × Option PyError :=
  let j := s.jobs.length
  let g := { Git.initState with preset_args := preset, errReceivers := errRecv }
  let s1 : QSys := { s with jobs := s.jobs ++ [g], execConns := s.execConns ++ [j],
                            queue := s.queue ++ [j] }
  if s1.queue.length = 1 then runJob s1 (s1.queue.headD 0) else (s1, none)

/-- `GitJobQueue._remove_current` (lines 268-279): on a non-empty queue, if
the head is running first call `errorOccurred.disconnect()` — which raises
`TypeError` when that signal has no connected receiver, and otherwise
removes them all — then `kill()` it; in either case `deleteLater()` the head
and delete it from the queue.  Note the `executed` connection is never
touched here.  The inner `none` branch is unreachable: queue entries always
index into `jobs`. -/
def _remove_current (s : QSys) : QSys × Option PyError :=
  match s.queue with
  | [] => (s, none)
  | j :: rest =>
    match s.getJob j with
    | none => (s, none)
    | some g =>
      if g.running then
        if g.errReceivers = 0 then
          (s, some .typeError)
        else
          let g1 := { Git.kill { g with errReceivers := 0 } with deleted := true }
          ({ s.setJob j g1 with queue := rest }, none)
      else
        ({ s.setJob j { g with deleted := true } with queue := rest }, none)

/-- `GitJobQueue._auto_run_next` (lines 259-266): remove the current head,
then run the new head if the queue is non-empty.  Entering the handler is
logged in `advances`.  A raise from `_remove_current` propagates. -/
def _auto_run_next (s : QSys) : QSys × Option PyError :=
  let s0 := { s with advances := s.advances + 1 }
  match _remove_current s0 with
  | (s1, some e) => (s1, some e)
  | (s1, none) =>
    match s1.queue with
    | [] => (s1, none)
    | j :: _ => runJob s1 j

/-- The `for job in self._queue: job.deleteLater()` loop of `killAll`
(lines 254-255), run after `_remove_current` has already dropped the head. -/
def markDeleted (jobs : List GitState) : List Nat → List GitState
  | [] => jobs
  | j :: rest =>
    markDeleted (match jobs[j]? with
      | some g => jobs.set j { g with deleted := true }
      | none => jobs) rest

/-- `GitJobQueue.killAll` (lines 248-256): `_remove_current()`, then
`deleteLater()` every remaining job, then `self._queue = []`.  A raise from
`_remove_current` propagates and skips the rest, leaving the queue as it
was. -/
def killAll (s : QSys) : QSys × Option PyError :=
  match _remove_current s with
  | (s1, some e) => (s1, some e)
  | (s1, none) =>
    ({ s1 with jobs := markDeleted s1.jobs s1.queue, queue := [] }, none)

end GitJobQueue

/-- Delivery of one emitted signal of job `j` to the slots the queue
connected: `enqueue` connects only `executed → _auto_run_next`, so every
other signal finds no queue slot. -/
def deliverSig (s : QSys) (j : Nat) (sg : Sig) : QSys × Option PyError :=
  match sg with
  | .executedSig _ =>
    if s.execConns.contains j then GitJobQueue._auto_run_next s else (s, none)
  | _ => (s, none)

/-- Deliver a list of emitted signals in order; an exception escaping a slot
stops the delivery. -/
def deliverSigs (s : QSys) (j : Nat) : List Sig → QSys × Option PyError
  | [] => (s, none)
  | sg :: rest =>
    match deliverSig s j sg with
    | (s1, some e) => (s1, some e)
    | (s1, none) => deliverSigs s1 j rest

/-- Environment event: the external process of job `j` exits with the given
captured channels and exit code.  The job's `_finished` slot runs and its
emitted signals are delivered to the queue's connections. -/
def processExit (s : QSys) (j : Nat) (raw_out raw_err : String) (exitcode : Int) :
    QSys × Option PyError :=
  match s.getJob j with
  | none => (s, none)
  | some g =>
    let (g1, sigs) := Git.processExitJob g raw_out raw_err exitcode
    deliverSigs (s.setJob j g1) j sigs

/-- The states a `GitJobQueue` system can reach from construction.  The
`advStep` constructor runs the advance handler directly even though no
signal emitted in gitjob.py ever triggers it; including it only enlarges the
reachable set, so invariants proved over `Reachable` also cover the advance
path the specification describes. -/
inductive Reachable : QSys → Prop where
  | init : Reachable QSys.initState
  | enq (s : QSys) (preset : Option (List String)) (errRecv : Nat) :
      Reachable s → Reachable (GitJobQueue.enqueue s preset errRecv).1
  | exitStep (s : QSys) (j : Nat) (raw_out raw_err : String) (exitcode : Int) :
      Reachable s → Reachable (processExit s j raw_out raw_err exitcode).1
  | killStep (s : QSys) : Reachable s → Reachable (GitJobQueue.killAll s).1
  | advStep (s : QSys) : Reachable s → Reachable (GitJobQueue._auto_run_next s).1

/-- Every queue entry names an existing job object. -/
def QSys.validQueue (s : QSys) : Prop := ∀ j ∈ s.queue, j < s.jobs.length

/-- Every queued job other than the head is not running. -/
def QSys.tailPending (s : QSys) : Prop :=
  ∀ j ∈ s.queue.drop 1, jobRunning s j = false

/-- The inductive invariant: queue entries are valid and distinct, and only
the head may be running. -/
def QSys.Inv (s : QSys) : Prop := s.validQueue ∧ s.queue.Nodup ∧ s.tailPending

/-- Decidable equality for `Except` results, used to evaluate the embedded
operations on concrete inputs. -/
instance {ε α : Type} [DecidableEq ε] [DecidableEq α] : DecidableEq (Except ε α)
  | .error a, .error b =>
    if h : a = b then .isTrue (congrArg Except.error h)
    else .isFalse (fun hh => h (Except.error.inj hh))
  | .error _, .ok _ => .isFalse (fun hh => Except.noConfusion hh)
  | .ok _, .error _ => .isFalse (fun hh => Except.noConfusion hh)
  | .ok a, .ok b =>
    if h : a = b then .isTrue (congrArg Except.ok h)
    else .isFalse (fun hh => h (Except.ok.inj hh))

/-- The specification's description of `run_blocking`: reuse exactly the
launch path of `run`, suspend until process exit (during which the
completion handler runs), and return the captured pair.  To be compared
with the source's `Git.run_blocking`, which duplicates the two
resolution/launch lines of `run` instead of calling it. -/
def run_blocking_spec (g : GitState) (args : Option (List String)) (isbinary : Bool)
    (raw_out raw_err : String) (exitcode : Int) :
    Except PyError (GitState × (Option Payload × Option Payload)) :=
  match Git.run g args isbinary with
  | .error e => .error e
  | .ok g1 =>
    let g2 := (Git.processExitJob g1 raw_out raw_err exitcode).1
    .ok (g2, (g2._stdout, g2._stderr))

/-- A `Git` job whose caller stored preset arguments before invoking it. -/
def c6Preset : GitState := { Git.initState with preset_args := some ["st"] }

/-- The job state produced by a completed
`run_blocking(['st'])` with captured stdout `"x\n"` and empty stderr. -/
def c7After : GitState :=
  match Git.run_blocking Git.initState (some ["st"]) false "x\n" "" 0 with
  | .ok (g2, _) => g2
  | .error _ => Git.initState

/-- Claim C1 scenario, first step: one job with preset arguments enqueued
into a fresh queue (it launches immediately). -/
def c1AfterFirst : QSys := (GitJobQueue.enqueue QSys.initState (some ["diff"]) 0).1

/-- Claim C1 scenario, second step: a second job enqueued behind it. -/
def c1AfterSecond : QSys := (GitJobQueue.enqueue c1AfterFirst (some ["status"]) 0).1

/-- Claim C1 scenario, third step: the first job's process exits with code 0
and stdout `"done\n"`; its `_finished` slot runs and its emitted signals are
delivered. -/
def c1AfterExit : QSys := (processExit c1AfterSecond 0 "done\n" "" 0).1

/-- Claim C4 scenario: a queue with a running head job (one external
receiver on its `errorOccurred`, so `disconnect()` succeeds) and one pending
job. -/
def c4Start : QSys :=
  (GitJobQueue.enqueue
    (GitJobQueue.enqueue QSys.initState (some ["diff"]) 1).1 (some ["status"]) 0).1

/-- The head job object of `c4Start`: launched with its preset arguments and
still running. -/
def c4Head : GitState :=
  { Git.initState with preset_args := some ["diff"], errReceivers := 1,
                       procArgs := ["diff"], running := true }

/-- Claim C8/C9 witness scenario: two jobs enqueued in order into a fresh
queue. -/
def c8Two : QSys :=
  (GitJobQueue.enqueue
    (GitJobQueue.enqueue QSys.initState (some ["a"]) 0).1 (some ["b"]) 0).1

theorem Git.stdout_eq_field (g : GitState) : Git.stdout g = g._stdout := by
  cases h : g._stdout <;> simp [Git.stdout, h]

theorem Git.stderr_raises (g : GitState) : Git.stderr g = .error .nameError := by
  simp [Git.stderr, Git.pyResolvesName]

/-- C3: the claim says `stdout()` and `stderr()` each return the `None`
sentinel strictly before completion and the captured payload strictly after,
without raising.  REFUTED for `stderr()`: its guard at line 195 reads the
unbound identifier `none` (lowercase), so every call raises `NameError`,
before and after completion alike; `stdout()` does behave as claimed,
returning exactly the `_stdout` field (`None` until completion, the payload
afterwards). -/
theorem C3_stderr_always_raises_nameerror :
    (∀ g : GitState, Git.stderr g = .error .nameError) ∧
    (∀ g : GitState, Git.stdout g = g._stdout) :=
  ⟨Git.stderr_raises, Git.stdout_eq_field⟩

/-- C5: in text mode the completion handler decodes each captured channel as
UTF-8 and splits on newlines, dropping only a trailing empty artifact line:
raw bytes `b"a\nb\n"` give lines `["a", "b"]`, and raw bytes `b"a\nb"` also
give `["a", "b"]`.  CONFIRMED, on both channels and both inputs. -/
theorem C5_text_mode_line_split (g : GitState) :
    (Git._handle_results { g with _isbinary := false } "a\nb\n" "a\nb")._stdout
      = some (.text ["a", "b"]) ∧
    (Git._handle_results { g with _isbinary := false } "a\nb\n" "a\nb")._stderr
      = some (.text ["a", "b"]) ∧
    (Git._handle_results { g with _isbinary := false } "a\nb" "a\nb\n")._stdout
      = some (.text ["a", "b"]) ∧
    (Git._handle_results { g with _isbinary := false } "a\nb" "a\nb\n")._stderr
      = some (.text ["a", "b"]) := by
  refine ⟨?_, ?_, ?_, ?_⟩ <;> simp [Git._handle_results] <;> decide

/-- C2: the claim says a first `version()` call on stdout line
`"git version 2.30.1"` returns and caches `(2, 30, 1)`, and that
non-matching output must not crash.  REFUTED: `run_blocking` returns the
pair `(stdout, stderr)`, so `output[0]` at line 221 is the whole stdout
line-list, never a string, and `re.match` raises `TypeError` on it — the
call crashes even on perfectly matching output, and the cache is never set
(the exception propagates before any assignment to `self._version`).  The
third conjunct shows the regex itself, applied to the first line as the
claim intends, would have produced `(2, 30, 1)`. -/
theorem C2_version_raises_typeerror :
    Git.version Git.initState "git version 2.30.1\n" "" 0 = .error .typeError ∧
    Git.initState._version = none ∧
    Git.reMatchVersionStr "git version 2.30.1" = some (2, 30, 1) :=
  ⟨by decide, by decide, by decide⟩

/-- C6: `run` and `run_blocking` invoked with no `args` and no preset
default fail immediately with a raised `Exception`, before any process is
launched (no started job state exists — the error is the entire result);
with a preset default present the preset is used, the process starts, and no
error is raised.  CONFIRMED. -/
theorem C6_run_without_args_fails_before_launch (g : GitState) (b : Bool)
    (ro re : String) (c : Int) :
    (g.preset_args = none →
      Git.run g none b = .error .exceptionArgsNotSpecified ∧
      Git.run_blocking g none b ro re c = .error .exceptionArgsNotSpecified) ∧
    (∀ pa, g.preset_args = some pa →
      Git.run g none b =
        .ok { g with _stderr := none, _stdout := none, _isbinary := b,
                     procArgs := pa, running := true }) := by
  constructor
  · intro h
    constructor <;> simp [Git.run, Git.run_blocking, Git._start_process, h]
  · intro pa h
    simp [Git.run, Git._start_process, h]

theorem C6_witness :
    (Git.run Git.initState none false = .error .exceptionArgsNotSpecified ∧
      Git.run_blocking Git.initState none false "" "" 0 =
        .error .exceptionArgsNotSpecified) ∧
    Git.run c6Preset none false =
      .ok { c6Preset with _stderr := none, _stdout := none, _isbinary := false,
                          procArgs := ["st"], running := true } :=
  ⟨(C6_run_without_args_fails_before_launch Git.initState false "" "" 0).1 rfl,
   (C6_run_without_args_fails_before_launch c6Preset false "" "" 0).2 ["st"] rfl⟩

/-- C7: the claim says `run_blocking` performs the same argument resolution
and launch/capture path as `run`, returns the pair (stdout, stderr), and
that the same values are retrievable afterwards via the accessors.  The
refinement part holds: `run_blocking` equals the spec-side composition of
`run` with process completion, and the returned pair is exactly the captured
fields, which `stdout()` returns.  REFUTED on the last part: `stderr()`
raises `NameError` on every call (line 195), so the captured stderr is not
retrievable through its accessor. -/
theorem C7_run_blocking_refines_run (g : GitState) (args : Option (List String))
    (b : Bool) (ro re : String) (c : Int) :
    Git.run_blocking g args b ro re c = run_blocking_spec g args b ro re c ∧
    (∀ g2 p, Git.run_blocking g args b ro re c = .ok (g2, p) →
      p = (g2._stdout, g2._stderr) ∧
      Git.stdout g2 = p.1 ∧
      Git.stderr g2 = .error .nameError) := by
  constructor
  · rfl
  · intro g2 p h
    simp only [Git.run_blocking] at h
    split at h
    · cases h
    · simp only [Except.ok.injEq, Prod.mk.injEq] at h
      obtain ⟨hg, hp⟩ := h
      subst hg
      subst hp
      exact ⟨rfl, Git.stdout_eq_field _, Git.stderr_raises _⟩

theorem C7_witness :
    Git.run_blocking Git.initState (some ["st"]) false "x\n" "" 0 =
      run_blocking_spec Git.initState (some ["st"]) false "x\n" "" 0 ∧
    Git.stdout c7After = some (.text ["x"]) ∧
    Git.stderr c7After = .error .nameError := by
  have h := C7_run_blocking_refines_run Git.initState (some ["st"]) false "x\n" "" 0
  have h2 := h.2 c7After (some (.text ["x"]), some (.text [])) (by decide)
  exact ⟨h.1, h2.2.1, h2.2.2⟩

/-- C1: the claim says jobs execute strictly in enqueue order with job K+1
launched only after job K's completion notification is processed, the
advance handler being triggered by the finished job's `executed` signal.
REFUTED by the code: `Git._finished` emits only `finished`, and nothing in
gitjob.py ever emits `executed`, the one signal `enqueue` connects to
`_auto_run_next`.  In the two-job scenario, after the first job's process
exits the queue still holds both jobs, the advance handler has never run,
the second job was never launched and is not running — the comment above
the `executed` declaration (lines 43-44) and the queue design say it should
have been.  The final conjunct shows no completion of any job in any state
ever emits `executed`. -/
theorem C1_completion_never_triggers_advance :
    c1AfterExit.queue = [0, 1] ∧
    jobRunning c1AfterExit 0 = false ∧
    jobRunning c1AfterExit 1 = false ∧
    c1AfterExit.launches = [0] ∧
    c1AfterExit.advances = 0 ∧
    (∀ (g : GitState) (ro re : String) (ec st : Int),
      Sig.executedSig st ∉ (Git.processExitJob g ro re ec).2) := by
  refine ⟨by decide, by decide, by decide, by decide, by decide, ?_⟩
  intro g ro re ec st h
  simp [Git.processExitJob] at h

/-- C9 counterexample: enqueueing a job that has no preset arguments into
the empty queue appends and connects it, but the immediate `run()` raises
(`args` unavailable) and the job is NOT running when `enqueue` returns —
refuting the claim's unconditional "the job is running (as the head) when
enqueue returns". -/
theorem C9_counterexample_enqueue_without_preset :
    (GitJobQueue.enqueue QSys.initState none 0).2 =
      some .exceptionArgsNotSpecified ∧
    (GitJobQueue.enqueue QSys.initState none 0).1.queue = [0] ∧
    jobRunning (GitJobQueue.enqueue QSys.initState none 0).1 0 = false ∧
    (GitJobQueue.enqueue QSys.initState none 0).1.launches = [] := by
  decide

/-- C4 counterexample: on a queue with a running head (one external
`errorOccurred` receiver) and one pending job, `killAll` completes and
empties the queue — but the `executed` connections of both removed jobs,
including the killed head's completion hook into `_auto_run_next`, are still
present afterwards, refuting the claim's "detaches the head job's completion
hook before terminating it" (the code detaches the `errorOccurred`
receivers instead, line 276). -/
theorem C4_counterexample_completion_hook_not_detached :
    jobRunning c4Start 0 = true ∧
    c4Start.queue = [0, 1] ∧
    (GitJobQueue.killAll c4Start).2 = none ∧
    (GitJobQueue.killAll c4Start).1.queue = [] ∧
    (GitJobQueue.killAll c4Start).1.execConns = [0, 1] := by
  decide

/-- C10: `killAll` on an empty `GitJobQueue` is a safe no-op: the guard in
`_remove_current` sees the empty queue and returns without indexing or
killing, the `deleteLater` loop iterates over nothing, and the queue is
reassigned the empty list — no error, state unchanged.  CONFIRMED. -/
theorem C10_killAll_empty_queue_noop (s : QSys) (h : s.queue = []) :
    GitJobQueue.killAll s = (s, none) := by
  obtain ⟨jobs, queue, conns, la, ad⟩ := s
  simp only at h
  subst h
  rfl

theorem C10_witness : GitJobQueue.killAll QSys.initState = (QSys.initState, none) :=
  C10_killAll_empty_queue_noop QSys.initState rfl

theorem jobRunning_eq_map (s : QSys) (i : Nat) :
    jobRunning s i = ((s.jobs[i]?).map GitState.running).getD false := by
  unfold jobRunning QSys.getJob
  cases s.jobs[i]? <;> rfl

theorem handle_results_running (g : GitState) (ro re : String) :
    (Git._handle_results g ro re).running = g.running := by
  unfold Git._handle_results
  split <;> rfl

theorem processExitJob_not_running (g : GitState) (ro re : String) (c : Int) :
    (Git.processExitJob g ro re c).1.running = false := by
  unfold Git.processExitJob
  simp [handle_results_running]

theorem markDeleted_running (q : List Nat) (jobs : List GitState) (i : Nat) :
    ((GitJobQueue.markDeleted jobs q)[i]?).map GitState.running =
      (jobs[i]?).map GitState.running := by
  induction q generalizing jobs with
  | nil => rfl
  | cons j rest ih =>
    unfold GitJobQueue.markDeleted
    cases hj : jobs[j]? with
    | none => exact ih jobs
    | some g =>
      rw [ih]
      by_cases hij : i = j
      · subst hij
        have hlt : i < jobs.length := (List.getElem?_eq_some.mp hj).1
        rw [List.getElem?_set_self hlt, hj]
        rfl
      · rw [List.getElem?_set_ne (fun he => hij he.symm)]

theorem processExit_advances_queue (s : QSys) (j : Nat) (ro re : String) (c : Int) :
    (processExit s j ro re c).1.advances = s.advances ∧
    (processExit s j ro re c).1.queue = s.queue := by
  unfold processExit
  cases hg : s.getJob j with
  | none => exact ⟨rfl, rfl⟩
  | some g => exact ⟨rfl, rfl⟩

/-- C4 (amended): `killAll` on a queue whose running head job has at least
one external `errorOccurred` receiver and M pending jobs detaches the
head's `errorOccurred` receivers — its `executed` completion hook into the
queue stays connected — then terminates the head and discards every job.
Afterwards the queue is empty, no previously queued job is running, and the
advance handler is never re-entered by any of the removed jobs' process
completions, because completion emits only `finished`, which the queue does
not subscribe to. -/
theorem C4_killAll_behavior (s : QSys) (j : Nat) (rest : List Nat) (g : GitState)
    (hq : s.queue = j :: rest) (hg : s.getJob j = some g)
    (hrun : g.running = true) (herr : ¬ g.errReceivers = 0) (hp : s.tailPending) :
    ∃ s1, GitJobQueue.killAll s = (s1, none) ∧
      s1.queue = [] ∧
      s1.execConns = s.execConns ∧
      (∀ i ∈ s.queue, jobRunning s1 i = false) ∧
      (∀ (i : Nat) (ro re : String) (c : Int),
        (processExit s1 i ro re c).1.advances = s1.advances ∧
        (processExit s1 i ro re c).1.queue = []) := by
  have hjlt : j < s.jobs.length := (List.getElem?_eq_some.mp hg).1
  have hgk : Git.kill { g with errReceivers := 0 } =
      { g with errReceivers := 0, running := false } := by
    simp [Git.kill, Git.isRunning, hrun]
  have hrm : GitJobQueue._remove_current s =
      ({ s.setJob j { Git.kill { g with errReceivers := 0 } with deleted := true }
          with queue := rest }, none) := by
    unfold GitJobQueue._remove_current
    rw [hq]
    simp only [hg, if_pos hrun, if_neg herr]
  have hka : GitJobQueue.killAll s =
      ({ { s.setJob j { Git.kill { g with errReceivers := 0 } with deleted := true }
            with queue := rest } with
          jobs := GitJobQueue.markDeleted
            (s.setJob j { Git.kill { g with errReceivers := 0 } with deleted := true }).jobs
            rest,
          queue := [] }, none) := by
    unfold GitJobQueue.killAll
    rw [hrm]
  refine ⟨_, hka, rfl, rfl, ?_, ?_⟩
  · intro i hi
    rw [jobRunning_eq_map]
    simp only [markDeleted_running, QSys.setJob]
    rw [hq] at hi
    rcases List.mem_cons.mp hi with hij | hirest
    · subst hij
      rw [List.getElem?_set_self hjlt]
      simp [hgk]
    · have hiR : jobRunning s i = false := by
        apply hp
        rw [hq]
        simpa using hirest
      have hij : i ≠ j := by
        intro he
        rw [he, jobRunning_eq_map] at hiR
        rw [show s.jobs[j]? = some g from hg] at hiR
        simp [hrun] at hiR
      rw [List.getElem?_set_ne (fun he => hij he.symm)]
      rw [jobRunning_eq_map] at hiR
      exact hiR
  · intro i ro re c
    exact processExit_advances_queue _ i ro re c

theorem C4_witness :
    ∃ s1, GitJobQueue.killAll c4Start = (s1, none) ∧
      s1.queue = [] ∧
      s1.execConns = c4Start.execConns ∧
      (∀ i ∈ c4Start.queue, jobRunning s1 i = false) ∧
      (∀ (i : Nat) (ro re : String) (c : Int),
        (processExit s1 i ro re c).1.advances = s1.advances ∧
        (processExit s1 i ro re c).1.queue = []) :=
  C4_killAll_behavior c4Start 0 [1] c4Head (by decide) (by decide) (by decide)
    (by decide) (by unfold QSys.tailPending; decide)

theorem inv_runJob (s : QSys) (j : Nat) (h : s.Inv) (hj : j ∉ s.queue.drop 1) :
    (runJob s j).1.Inv := by
  obtain ⟨hv, hn, ht⟩ := h
  unfold runJob
  cases hg : s.getJob j with
  | none => exact ⟨hv, hn, ht⟩
  | some g =>
    dsimp only
    cases hr : Git.run g none false with
    | error e => exact ⟨hv, hn, ht⟩
    | ok g1 =>
      refine ⟨?_, hn, ?_⟩
      · intro i hi
        have := hv i hi
        simpa [QSys.setJob] using this
      · intro i hi
        have hij : i ≠ j := fun he => hj (he ▸ hi)
        rw [jobRunning_eq_map]
        simp only [QSys.setJob]
        rw [List.getElem?_set_ne (fun he => hij he.symm)]
        rw [← jobRunning_eq_map]
        exact ht i hi

theorem inv_enqueue (s : QSys) (p : Option (List String)) (er : Nat) (h : s.Inv) :
    (GitJobQueue.enqueue s p er).1.Inv := by
  obtain ⟨hv, hn, ht⟩ := h
  unfold GitJobQueue.enqueue
  dsimp only
  have hs1 : QSys.Inv { s with
      jobs := s.jobs ++ [{ Git.initState with preset_args := p, errReceivers := er }],
      execConns := s.execConns ++ [s.jobs.length],
      queue := s.queue ++ [s.jobs.length] } := by
    refine ⟨?_, ?_, ?_⟩
    · intro i hi
      simp only [List.length_append, List.length_cons, List.length_nil]
      rcases List.mem_append.mp hi with hiq | hij
      · exact Nat.lt_succ_of_lt (hv i hiq)
      · simp only [List.mem_singleton] at hij
        subst hij
        exact Nat.lt_succ_self _
    · refine List.Nodup.append hn (List.nodup_singleton _) ?_
      intro a ha hb
      simp only [List.mem_singleton] at hb
      subst hb
      exact absurd (hv _ ha) (lt_irrefl _)
    · intro i hi
      cases hq : s.queue with
      | nil =>
        rw [hq] at hi
        simp at hi
      | cons a t =>
        rw [hq] at hi
        simp only [List.cons_append, List.drop_succ_cons, List.drop_zero] at hi
        rw [jobRunning_eq_map]
        rcases List.mem_append.mp hi with hit | hij
        · have hilt : i < s.jobs.length := by
            apply hv
            rw [hq]
            exact List.mem_cons_of_mem a hit
          rw [List.getElem?_append_left hilt]
          rw [← jobRunning_eq_map]
          apply ht
          rw [hq]
          simpa using hit
        · simp only [List.mem_singleton] at hij
          subst hij
          rw [List.getElem?_concat_length]
          rfl
  split
  · rename_i hlen1
    have hq0 : s.queue = [] := by
      rw [List.length_append, List.length_cons, List.length_nil] at hlen1
      have h0 : s.queue.length = 0 := by omega
      exact List.length_eq_zero.mp h0
    rw [hq0]
    apply inv_runJob
    · rw [hq0] at hs1
      exact hs1
    · simp
  · exact hs1

theorem inv_remove_current (s : QSys) (h : s.Inv) :
    (GitJobQueue._remove_current s).1.Inv := by
  obtain ⟨hv, hn, ht⟩ := h
  unfold GitJobQueue._remove_current
  cases hq : s.queue with
  | nil => exact ⟨hv, hn, ht⟩
  | cons j rest =>
    dsimp only
    cases hg : s.getJob j with
    | none => exact ⟨hv, hn, ht⟩
    | some g =>
      dsimp only
      have hjrest : j ∉ rest := (List.nodup_cons.mp (hq ▸ hn)).1
      have hsub : ∀ i, i ∈ rest → i ∈ s.queue := by
        intro i hi
        rw [hq]
        exact List.mem_cons_of_mem j hi
      have hcore : ∀ g1 : GitState,
          QSys.Inv { s.setJob j g1 with queue := rest } := by
        intro g1
        refine ⟨?_, (List.nodup_cons.mp (hq ▸ hn)).2, ?_⟩
        · intro i hi
          have := hv i (hsub i hi)
          simpa [QSys.setJob] using this
        · intro i hi
          have hirest : i ∈ rest := List.drop_subset 1 rest hi
          have hij : i ≠ j := fun he => hjrest (he ▸ hirest)
          rw [jobRunning_eq_map]
          simp only [QSys.setJob]
          rw [List.getElem?_set_ne (fun he => hij he.symm)]
          rw [← jobRunning_eq_map]
          apply ht
          rw [hq]
          exact hirest
      split
      · split
        · exact ⟨hv, hn, ht⟩
        · exact hcore _
      · exact hcore _

theorem inv_auto_run_next (s : QSys) (h : s.Inv) :
    (GitJobQueue._auto_run_next s).1.Inv := by
  have h0 : QSys.Inv { s with advances := s.advances + 1 } := h
  have h1 := inv_remove_current { s with advances := s.advances + 1 } h0
  unfold GitJobQueue._auto_run_next
  dsimp only
  rcases hrm : GitJobQueue._remove_current { s with advances := s.advances + 1 }
    with ⟨s1, err⟩
  rw [hrm] at h1
  cases err with
  | some e => exact h1
  | none =>
    dsimp only
    cases hq : s1.queue with
    | nil => exact h1
    | cons j t =>
      dsimp only
      apply inv_runJob s1 j h1
      rw [hq]
      exact (List.nodup_cons.mp (hq ▸ h1.2.1)).1

theorem inv_killAll (s : QSys) (h : s.Inv) :
    (GitJobQueue.killAll s).1.Inv := by
  have h1 := inv_remove_current s h
  unfold GitJobQueue.killAll
  rcases hrm : GitJobQueue._remove_current s with ⟨s1, err⟩
  rw [hrm] at h1
  cases err with
  | some e => exact h1
  | none =>
    refine ⟨?_, ?_, ?_⟩
    · intro i hi
      simp at hi
    · simp
    · intro i hi
      simp at hi

theorem inv_processExit (s : QSys) (j : Nat) (ro re : String) (c : Int)
    (h : s.Inv) : (processExit s j ro re c).1.Inv := by
  obtain ⟨hv, hn, ht⟩ := h
  unfold processExit
  cases hg : s.getJob j with
  | none => exact ⟨hv, hn, ht⟩
  | some g =>
    dsimp only
    have hjlt : j < s.jobs.length := (List.getElem?_eq_some.mp hg).1
    simp only [Git.processExitJob, deliverSigs, deliverSig]
    refine ⟨?_, hn, ?_⟩
    · intro i hi
      have := hv i hi
      simpa [QSys.setJob] using this
    · intro i hi
      rw [jobRunning_eq_map]
      simp only [QSys.setJob]
      by_cases hij : i = j
      · subst hij
        rw [List.getElem?_set_self hjlt]
        simp [handle_results_running]
      · rw [List.getElem?_set_ne (fun he => hij he.symm)]
        rw [← jobRunning_eq_map]
        exact ht i hi

theorem inv_reachable (s : QSys) (h : Reachable s) : s.Inv := by
  induction h with
  | init =>
    refine ⟨?_, ?_, ?_⟩
    · intro i hi
      simp [QSys.initState] at hi
    · simp [QSys.initState]
    · intro i hi
      simp [QSys.initState] at hi
  | enq s preset er hr ih => exact inv_enqueue s preset er ih
  | exitStep s j ro re c hr ih => exact inv_processExit s j ro re c ih
  | killStep s hr ih => exact inv_killAll s ih
  | advStep s hr ih => exact inv_auto_run_next s ih

/-- C8: in every reachable state of a `GitJobQueue`, at most the
head-of-queue job is running and every other queued job is strictly
pending.  CONFIRMED, as the invariant that every queued job past index 0 is
not running, proved by induction over all reachable states: `enqueue`
launches only the sole element of a newly-singleton queue, the advance
handler launches only the new head after removing the old one, and process
completion, `killAll` and the raising paths only stop jobs.  The induction
even includes direct advance-handler steps, which the signals the code
actually emits can never trigger. -/
theorem C8_at_most_head_running (s : QSys) (h : Reachable s) : s.tailPending :=
  (inv_reachable s h).2.2

theorem C8_witness : jobRunning c8Two 1 = false := by
  have h := C8_at_most_head_running c8Two
    (Reachable.enq _ _ _ (Reachable.enq _ _ _ Reachable.init))
  exact h 1 (by decide)

/-- C9 (amended): enqueue of a job with preset arguments into a previously
empty queue appends the job and launches it immediately, so it is running as
the head when `enqueue` returns; a job enqueued with no preset arguments is
appended and connected but its launch raises and it is not running (the
counterexample to the unconditional claim).  Enqueue into a non-empty queue
only appends: no error, no launch, the new job not running. -/
theorem C9_enqueue_launches_iff_queue_was_empty (s : QSys) (p : List String)
    (q : Option (List String)) (er : Nat) :
    (s.queue = [] →
      (GitJobQueue.enqueue s (some p) er).2 = none ∧
      (GitJobQueue.enqueue s (some p) er).1.queue = [s.jobs.length] ∧
      jobRunning (GitJobQueue.enqueue s (some p) er).1 s.jobs.length = true ∧
      (GitJobQueue.enqueue s (some p) er).1.launches =
        s.launches ++ [s.jobs.length]) ∧
    (s.queue ≠ [] →
      (GitJobQueue.enqueue s q er).2 = none ∧
      (GitJobQueue.enqueue s q er).1.queue = s.queue ++ [s.jobs.length] ∧
      jobRunning (GitJobQueue.enqueue s q er).1 s.jobs.length = false ∧
      (GitJobQueue.enqueue s q er).1.launches = s.launches) := by
  obtain ⟨jobs, queue, conns, la, ad⟩ := s
  constructor
  · intro h
    simp only at h
    subst h
    simp only [GitJobQueue.enqueue, List.nil_append, List.length_cons, List.length_nil,
      if_pos rfl, List.headD, if_true, runJob, QSys.getJob, Git.initState,
      List.getElem?_concat_length, Git.run, Git._start_process, QSys.setJob, jobRunning,
      List.getElem?_set_self, List.length_append, Nat.lt_succ_self]
    exact ⟨trivial, trivial, trivial, trivial⟩
  · intro h
    simp only at h
    have hlen : ((queue ++ [jobs.length] : List Nat)).length ≠ 1 := by
      simp only [List.length_append, List.length_cons, List.length_nil, Nat.zero_add]
      intro hq
      exact h (List.length_eq_zero.mp (Nat.succ_injective hq))
    simp only [GitJobQueue.enqueue, if_neg hlen, jobRunning, QSys.getJob,
      List.getElem?_concat_length, Git.initState]
    exact ⟨trivial, trivial, trivial, trivial⟩

theorem C9_witness :
    ((GitJobQueue.enqueue QSys.initState (some ["a"]) 0).2 = none ∧
      (GitJobQueue.enqueue QSys.initState (some ["a"]) 0).1.queue = [0] ∧
      jobRunning (GitJobQueue.enqueue QSys.initState (some ["a"]) 0).1 0 = true ∧
      (GitJobQueue.enqueue QSys.initState (some ["a"]) 0).1.launches = [0]) ∧
    ((GitJobQueue.enqueue c8Two (some ["c"]) 0).2 = none ∧
      (GitJobQueue.enqueue c8Two (some ["c"]) 0).1.queue = [0, 1, 2] ∧
      jobRunning (GitJobQueue.enqueue c8Two (some ["c"]) 0).1 2 = false ∧
      (GitJobQueue.enqueue c8Two (some ["c"]) 0).1.launches = [0]) := by
  have h1 :=
    (C9_enqueue_launches_iff_queue_was_empty QSys.initState ["a"] (some ["a"]) 0).1 rfl
  have h2 :=
    (C9_enqueue_launches_iff_queue_was_empty c8Two ["c"] (some ["c"]) 0).2 (by decide)
  exact ⟨⟨h1.1, h1.2.1, h1.2.2.1, h1.2.2.2⟩, ⟨h2.1, h2.2.1, h2.2.2.1, h2.2.2.2⟩⟩
